import Mathlib

/-!
Verification development for the `ultimate-optimizer` repository
(`src/mainsort.py` and `src/main.py`): a batch image-processing utility.
The Python sources are shallowly embedded as executable Lean definitions:
strings are `List Char` / `String`, the file system is a partial map from
structured paths to file data, and the external codec / OS calls are
modelled by the data they return plus explicit failure flags (every Python
`try`/`except` site in the source corresponds to one such flag or to a
deterministically detectable condition of the file-system state).
-/

namespace UltimateOptimizer

/-! ## Slug generator (src/mainsort.py, `slugify`, lines 10-22)

The Python function is

  value = unicodedata.normalize('NFKD', value).encode('ascii', 'ignore').decode('ascii')
  value = re.sub(r'[^\w\s-]', '', value).strip().lower()
  return re.sub(r'[-\s]+', '-', value)

and is embedded character-by-character below. -/

/-- Python whitespace class `\s` restricted to ASCII (after the `ascii`
encode step every character is ASCII): space, tab, newline, carriage
return, vertical tab, form feed. -/
def pyIsSpace (c : Char) : Bool :=
  c.toNat == 32 || c.toNat == 9 || c.toNat == 10 || c.toNat == 13 ||
    c.toNat == 11 || c.toNat == 12

/-- Python word class `\w` restricted to ASCII: letters, digits,
underscore. -/
def pyIsWord (c : Char) : Bool :=
  (65 ≤ c.toNat && c.toNat ≤ 90) || (97 ≤ c.toNat && c.toNat ≤ 122) ||
    (48 ≤ c.toNat && c.toNat ≤ 57) || c.toNat == 95

/-- Python `str.lower` on an ASCII character: shift the A-Z range by 32,
leave everything else unchanged. -/
def pyLower (c : Char) : Char :=
  if 65 ≤ c.toNat && c.toNat ≤ 90 then Char.ofNat (c.toNat + 32) else c

/-- Characters kept by `re.sub(r'[^\w\s-]', '', value)`: word characters,
whitespace, and the hyphen (code 45). -/
def keepChar (c : Char) : Bool :=
  pyIsWord c || pyIsSpace c || c.toNat == 45

/-- Characters matched by the final collapsing regex `[-\s]+`. -/
def isCollapseChar (c : Char) : Bool :=
  pyIsSpace c || c.toNat == 45

/-- Models `unicodedata.normalize('NFKD', value).encode('ascii',
'ignore').decode('ascii')`: ASCII characters are NFKD-invariant and kept
verbatim; a non-ASCII character is dropped by the `ignore` encoder.  (A
non-ASCII character whose NFKD decomposition contains ASCII
characters — e.g. an accented latin letter — would instead leave its ASCII
part behind; the theorems below do not depend on which ASCII residue a
non-ASCII character leaves, only on the residue being ASCII.) -/
def toAsciiNFKD (s : List Char) : List Char :=
  s.filter (fun c => c.toNat < 128)

/-- Models Python `str.strip()` (on the ASCII strings reaching it):
remove leading and trailing whitespace. -/
def stripList (l : List Char) : List Char :=
  ((l.dropWhile pyIsSpace).reverse.dropWhile pyIsSpace).reverse

/-- Models `re.sub(r'[-\s]+', '-', value)`: each maximal run of hyphens
and whitespace becomes a single hyphen.  The Boolean flag records whether
the previous character belonged to the current run. -/
def collapseGo : Bool → List Char → List Char
  | _, [] => []
  | inRun, c :: rest =>
    if isCollapseChar c then
      if inRun then collapseGo true rest
      else '-' :: collapseGo true rest
    else c :: collapseGo false rest

/-- Embedding of `slugify` (src/mainsort.py lines 10-22), stage by stage:
NFKD + ascii-ignore, removal of `[^\w\s-]`, `strip`, `lower`, and the
final `[-\s]+` collapse. -/
def slugify (s : List Char) : List Char :=
  collapseGo false ((stripList ((toAsciiNFKD s).filter keepChar)).map pyLower)

/-- String-level wrapper of `slugify`, for stating concrete examples. -/
def slugifyStr (s : String) : String :=
  ⟨slugify s.data⟩

/-- Characters a slug may contain according to the source: lowercase
letters, digits, underscore, hyphen. -/
def slugCharB (c : Char) : Bool :=
  (97 ≤ c.toNat && c.toNat ≤ 122) || (48 ≤ c.toNat && c.toNat ≤ 57) ||
    c.toNat == 95 || c.toNat == 45

/-- Characters the claim under examination allows: lowercase letters,
digits, hyphen — with no underscore. -/
def claimedSlugCharB (c : Char) : Bool :=
  (97 ≤ c.toNat && c.toNat ≤ 122) || (48 ≤ c.toNat && c.toNat ≤ 57) ||
    c.toNat == 45

/-- A character of a finished slug is fixed by every stage of `slugify`:
it is ASCII, survives the `[^\w\s-]` filter, is not whitespace, and is
its own lowercase form. -/
def slugFixed (c : Char) : Bool :=
  decide (c.toNat < 128) && keepChar c && !pyIsSpace c && (pyLower c == c)

theorem char_ofNat_fin : ∀ k : Fin 128, (Char.ofNat k.val).toNat = k.val := by
  decide

theorem toNat_ofNat_lt {n : Nat} (h : n < 128) : (Char.ofNat n).toNat = n := by
  have := char_ofNat_fin ⟨n, h⟩
  simpa using this

theorem char_eq_of_toNat {a b : Char} (h : a.toNat = b.toNat) : a = b := by
  rw [← Char.ofNat_toNat a, ← Char.ofNat_toNat b, h]

/-- Characterization of slug-fixed characters by their code point. -/
theorem slugFixed_iff_toNat (c : Char) :
    slugFixed c = true ↔
      ((97 ≤ c.toNat ∧ c.toNat ≤ 122) ∨ (48 ≤ c.toNat ∧ c.toNat ≤ 57) ∨
        c.toNat = 95 ∨ c.toNat = 45) := by
  constructor
  · intro h
    simp only [slugFixed, Bool.and_eq_true, decide_eq_true_eq,
      Bool.not_eq_true', beq_iff_eq] at h
    obtain ⟨⟨⟨hascii, hkeep⟩, hsp⟩, hlow⟩ := h
    have hup : ¬(65 ≤ c.toNat ∧ c.toNat ≤ 90) := by
      intro hcontra
      have hb : (65 ≤ c.toNat && c.toNat ≤ 90) = true := by
        simp only [Bool.and_eq_true, decide_eq_true_eq]
        exact hcontra
      have hv : (pyLower c).toNat = c.toNat + 32 := by
        have he : pyLower c = Char.ofNat (c.toNat + 32) := by
          simp only [pyLower, hb, if_true]
        rw [he, toNat_ofNat_lt (by omega)]
      rw [hlow] at hv
      omega
    simp only [keepChar, pyIsWord, pyIsSpace, Bool.or_eq_true, Bool.and_eq_true,
      decide_eq_true_eq, beq_iff_eq] at hkeep
    simp only [pyIsSpace, Bool.or_eq_false_iff, beq_eq_false_iff_ne, ne_eq] at hsp
    omega
  · intro h
    have hup : ¬((65 ≤ c.toNat && c.toNat ≤ 90) = true) := by
      simp only [Bool.and_eq_true, decide_eq_true_eq]
      omega
    have hfix : pyLower c = c := by
      simp only [pyLower]
      exact if_neg hup
    simp only [slugFixed, hfix, beq_self_eq_true, Bool.and_true, keepChar,
      pyIsWord, pyIsSpace, Bool.and_eq_true, Bool.or_eq_true, decide_eq_true_eq,
      beq_iff_eq, Bool.not_eq_true', Bool.or_eq_false_iff, beq_eq_false_iff_ne,
      ne_eq]
    omega

/-- Lowercasing an ASCII character kept by the slug filter, when the
result is not a collapse character, yields a slug-fixed character. -/
theorem slugFixed_pyLower {c : Char} (hascii : c.toNat < 128)
    (hkeep : keepChar c = true)
    (hcol : isCollapseChar (pyLower c) = false) :
    slugFixed (pyLower c) = true := by
  by_cases hup : (65 ≤ c.toNat ∧ c.toNat ≤ 90)
  · have hb : (65 ≤ c.toNat && c.toNat ≤ 90) = true := by
      simp only [Bool.and_eq_true, decide_eq_true_eq]
      exact hup
    have hv : (pyLower c).toNat = c.toNat + 32 := by
      have he : pyLower c = Char.ofNat (c.toNat + 32) := by
        simp only [pyLower, hb, if_true]
      rw [he, toNat_ofNat_lt (by omega)]
    rw [slugFixed_iff_toNat]
    left
    omega
  · have hb : ¬((65 ≤ c.toNat && c.toNat ≤ 90) = true) := by
      simp only [Bool.and_eq_true, decide_eq_true_eq]
      exact hup
    have hfix : pyLower c = c := by
      simp only [pyLower]
      exact if_neg hb
    rw [hfix] at hcol ⊢
    rw [slugFixed_iff_toNat]
    simp only [keepChar, pyIsWord, pyIsSpace, Bool.or_eq_true, Bool.and_eq_true,
      decide_eq_true_eq, beq_iff_eq] at hkeep
    simp only [isCollapseChar, pyIsSpace, Bool.or_eq_false_iff,
      beq_eq_false_iff_ne, ne_eq] at hcol
    omega

/-- The hyphen is slug-fixed. -/
theorem slugFixed_hyphen : slugFixed '-' = true := by decide

/-- Every character emitted by `collapseGo` is either the hyphen or a
non-collapse character taken from the input. -/
theorem collapseGo_chars :
    ∀ (l : List Char) (b : Bool) (c : Char), c ∈ collapseGo b l →
      c = '-' ∨ (c ∈ l ∧ isCollapseChar c = false) := by
  intro l
  induction l with
  | nil => intro b c h; simp [collapseGo] at h
  | cons a rest ih =>
    intro b c h
    cases ha : isCollapseChar a with
    | true =>
      cases b with
      | true =>
        simp only [collapseGo, ha, if_true] at h
        rcases ih true c h with h1 | h2
        · exact Or.inl h1
        · exact Or.inr ⟨List.mem_cons_of_mem _ h2.1, h2.2⟩
      | false =>
        simp only [collapseGo, ha, if_true] at h
        rcases List.mem_cons.mp h with h1 | h1
        · exact Or.inl h1
        · rcases ih true c h1 with h2 | h3
          · exact Or.inl h2
          · exact Or.inr ⟨List.mem_cons_of_mem _ h3.1, h3.2⟩
    | false =>
      simp only [collapseGo, ha, Bool.false_eq_true, if_false] at h
      rcases List.mem_cons.mp h with h1 | h1
      · subst h1; exact Or.inr ⟨List.mem_cons_self _ _, ha⟩
      · rcases ih false c h1 with h2 | h3
        · exact Or.inl h2
        · exact Or.inr ⟨List.mem_cons_of_mem _ h3.1, h3.2⟩

/-- The first character emitted by `collapseGo true` is never a collapse
character. -/
theorem collapseGo_true_head :
    ∀ (l : List Char) (c : Char), (collapseGo true l).head? = some c →
      isCollapseChar c = false := by
  intro l
  induction l with
  | nil => intro c h; simp [collapseGo] at h
  | cons a rest ih =>
    intro c h
    cases ha : isCollapseChar a with
    | true =>
      simp only [collapseGo, ha, if_true] at h
      exact ih c h
    | false =>
      simp only [collapseGo, ha, Bool.false_eq_true, if_false,
        List.head?_cons, Option.some.injEq] at h
      subst h
      exact ha

/-- No two adjacent characters of a `collapseGo` output are both collapse
characters. -/
theorem collapseGo_chain :
    ∀ (l : List Char) (b : Bool),
      List.Chain' (fun x y => isCollapseChar x = false ∨ isCollapseChar y = false)
        (collapseGo b l) := by
  intro l
  induction l with
  | nil => intro b; simp [collapseGo]
  | cons a rest ih =>
    intro b
    cases ha : isCollapseChar a with
    | true =>
      cases b with
      | true => simpa only [collapseGo, ha, if_true] using ih true
      | false =>
        simp only [collapseGo, ha, if_true]
        refine List.chain'_cons'.mpr ⟨?_, ih true⟩
        intro y hy
        exact Or.inr (collapseGo_true_head rest y hy)
    | false =>
      simp only [collapseGo, ha, Bool.false_eq_true, if_false]
      refine List.chain'_cons'.mpr ⟨?_, ih false⟩
      intro y _
      exact Or.inl ha

/-- When the head of the input is not a collapse character (or the input
is empty), the run flag makes no difference. -/
theorem collapseGo_true_eq_false :
    ∀ l : List Char, (∀ c, l.head? = some c → isCollapseChar c = false) →
      collapseGo true l = collapseGo false l := by
  intro l h
  cases l with
  | nil => rfl
  | cons a rest =>
    have ha := h a rfl
    simp only [collapseGo, ha, Bool.false_eq_true, if_false]

/-- A list without whitespace in which no two adjacent characters are
collapse characters is a fixed point of the collapsing pass. -/
theorem collapseGo_fixed :
    ∀ l : List Char, (∀ c ∈ l, pyIsSpace c = false) →
      List.Chain' (fun x y => isCollapseChar x = false ∨ isCollapseChar y = false) l →
      collapseGo false l = l := by
  intro l
  induction l with
  | nil => intro _ _; rfl
  | cons a rest ih =>
    intro hs hc
    have hrest : List.Chain' (fun x y => isCollapseChar x = false ∨ isCollapseChar y = false) rest :=
      (List.chain'_cons'.mp hc).2
    have htail : collapseGo false rest = rest :=
      ih (fun c hcm => hs c (List.mem_cons_of_mem _ hcm)) hrest
    cases ha : isCollapseChar a with
    | true =>
      have haa : a = '-' := by
        apply char_eq_of_toNat
        have hsa := hs a (List.mem_cons_self _ _)
        simp only [isCollapseChar, hsa, Bool.false_or, beq_iff_eq] at ha
        simpa using ha
      have hhead : ∀ c, rest.head? = some c → isCollapseChar c = false := by
        intro c hcH
        rcases (List.chain'_cons'.mp hc).1 c hcH with h1 | h2
        · rw [h1] at ha; exact absurd ha (by simp)
        · exact h2
      simp only [collapseGo, ha, if_true, Bool.false_eq_true, if_false]
      rw [collapseGo_true_eq_false rest hhead, htail, haa]
    | false =>
      simp only [collapseGo, ha, Bool.false_eq_true, if_false, htail]

/-- Membership in `stripList l` implies membership in `l`. -/
theorem mem_stripList {c : Char} {l : List Char} (h : c ∈ stripList l) : c ∈ l := by
  simp only [stripList, List.mem_reverse] at h
  have h1 := (List.dropWhile_sublist pyIsSpace).mem h
  simp only [List.mem_reverse] at h1
  exact (List.dropWhile_sublist pyIsSpace).mem h1

/-- Every character of a slug is slug-fixed. -/
theorem slugify_chars_fixed (s : List Char) :
    ∀ c ∈ slugify s, slugFixed c = true := by
  intro c hc
  rcases collapseGo_chars _ false c hc with h1 | h2
  · subst h1; exact slugFixed_hyphen
  · rcases List.mem_map.mp h2.1 with ⟨d, hd, hdc⟩
    have hd' := mem_stripList hd
    have hkeep : keepChar d = true := (List.mem_filter.mp hd').2
    have hascii : d.toNat < 128 := by
      have := (List.mem_filter.mp (List.mem_filter.mp hd').1).2
      simpa using this
    subst hdc
    exact slugFixed_pyLower hascii hkeep h2.2

/-- A slug-fixed list with no two adjacent collapse characters is a fixed
point of every stage of `slugify`, hence of `slugify` itself. -/
theorem slugify_fixed (l : List Char)
    (hf : ∀ c ∈ l, slugFixed c = true)
    (hc : List.Chain' (fun x y => isCollapseChar x = false ∨ isCollapseChar y = false) l) :
    slugify l = l := by
  have hascii : ∀ c ∈ l, (c.toNat < 128) := by
    intro c hm
    have := hf c hm
    simp only [slugFixed, Bool.and_eq_true, decide_eq_true_eq] at this
    exact this.1.1.1
  have hkeep : ∀ c ∈ l, keepChar c = true := by
    intro c hm
    have := hf c hm
    simp only [slugFixed, Bool.and_eq_true] at this
    exact this.1.1.2
  have hns : ∀ c ∈ l, pyIsSpace c = false := by
    intro c hm
    have := hf c hm
    simp only [slugFixed, Bool.and_eq_true, Bool.not_eq_true'] at this
    exact this.1.2
  have hlow : ∀ c ∈ l, pyLower c = c := by
    intro c hm
    have := hf c hm
    simp only [slugFixed, Bool.and_eq_true, beq_iff_eq] at this
    exact this.2
  have h1 : toAsciiNFKD l = l := by
    simp only [toAsciiNFKD]
    exact List.filter_eq_self.mpr (fun c hm => by simpa using hascii c hm)
  have h2 : l.filter keepChar = l := List.filter_eq_self.mpr hkeep
  have h3 : stripList l = l := by
    have e1 : l.dropWhile pyIsSpace = l := by
      apply List.dropWhile_eq_self_iff.mpr
      intro hlen
      have hx : pyIsSpace l[0] = false := hns _ (List.getElem_mem hlen)
      simp [hx]
    have e2 : l.reverse.dropWhile pyIsSpace = l.reverse := by
      apply List.dropWhile_eq_self_iff.mpr
      intro hlen
      have hlb : l.length - 1 < l.length := by
        simp only [List.length_reverse] at hlen
        omega
      have hx : pyIsSpace l[l.length - 1] = false := hns _ (List.getElem_mem hlb)
      simp [hx]
    simp only [stripList, e1, e2, List.reverse_reverse]
  have h4 : l.map pyLower = l := by
    conv_rhs => rw [← List.map_id l]
    exact List.map_congr_left hlow
  simp only [slugify, h1, h2, h3, h4]
  exact collapseGo_fixed l hns hc

/-- CLAIM C4: `slugify` is a deterministic, total, pure function (it is a
Lean function of its argument alone) and is idempotent —
`slugify (slugify x) = slugify x` for every string `x` — and empty input
yields empty output. -/
theorem slugify_idempotent_and_empty :
    (∀ s : List Char, slugify (slugify s) = slugify s) ∧ slugify [] = [] := by
  constructor
  · intro s
    exact slugify_fixed (slugify s) (slugify_chars_fixed s)
      (collapseGo_chain _ false)
  · rfl

/-- COUNTEREXAMPLE to CLAIM C5 as stated: `slugify` keeps the underscore
(a `\w` character), so the output of `slugify "2023_Winter!"` — which is
`"2023_winter"`, exactly as the claim itself requires — contains a
character outside the claimed alphabet `[a-z0-9-]`.  The two halves of
the claim are contradictory and the code sides with the underscore. -/
theorem slugify_underscore_outside_claimed_charset :
    slugifyStr "2023_Winter!" = "2023_winter" ∧
      (slugifyStr "2023_Winter!").data.all claimedSlugCharB = false := by
  constructor
  · rfl
  · rfl

/-- CLAIM C5 (amended): the output of `slugify` contains only characters
from `[a-z0-9_-]` (the underscore is retained, being a `\w` word
character), no two adjacent output characters are collapse characters
(runs are collapsed to single hyphens), and the directory name
`"2023_Winter!"` slugifies to `"2023_winter"`. -/
theorem slugify_charset_amended :
    (∀ s : List Char, (slugify s).all slugCharB = true ∧
      List.Chain' (fun x y => isCollapseChar x = false ∨ isCollapseChar y = false)
        (slugify s)) ∧
    slugifyStr "2023_Winter!" = "2023_winter" := by
  constructor
  · intro s
    constructor
    · apply List.all_eq_true.mpr
      intro c hc
      have hfx := (slugFixed_iff_toNat c).mp (slugify_chars_fixed s c hc)
      simp only [slugCharB, Bool.or_eq_true, Bool.and_eq_true,
        decide_eq_true_eq, beq_iff_eq]
      omega
    · exact collapseGo_chain _ false
  · rfl

/-! ## Data model for the per-image pipeline

Paths are absolute and structured: the directory components plus the
final component already split into Python `Path.stem` / `Path.suffix`
(the pipeline only ever splits the walker-given name once and then
concatenates, exactly as `Path.with_name(f"{stem}-original{suffix}")`
does).  The file system is a partial map from paths to file data.  A file
that the codec can open carries an `ImgInfo` (header-declared pixel
size, declared format, pixel mode); `img = none` means `Image.open`
raises.  External failures that the source catches (`os.rename` errors
other than `FileExistsError`, transient `Image.open` / `img.save` /
`os.path.getsize` errors) are modelled by per-call Boolean failure flags
in an `Oracle`, and the byte sizes the encoder produces are oracle
data, since they come from the opaque codec. -/

/-- Pixel data and header metadata of an openable image file. -/
structure ImgInfo where
  width : Nat
  height : Nat
  fmt : String
  mode : String
deriving DecidableEq, Repr

/-- Contents of one file: its byte size, and its decoded header if
`Image.open` succeeds on it. -/
structure FileData where
  bytes : Nat
  img : Option ImgInfo
deriving DecidableEq, Repr

/-- A structured absolute path: directory components, then the final
component split as Python `stem` / `suffix`. -/
structure PyPath where
  dirs : List String
  stem : String
  ext : String
deriving DecidableEq, Repr

/-- The file system: a partial map from paths to file contents. -/
def Fs : Type := PyPath → Option FileData

/-- Point update of the file system (a file write). -/
def fsSet (fs : Fs) (p : PyPath) (d : FileData) : Fs :=
  fun q => if q = p then some d else fs q

/-- Removal of a file (the source side of `os.rename`). -/
def fsRemove (fs : Fs) (p : PyPath) : Fs :=
  fun q => if q = p then none else fs q

/-- Outcomes of the externally fallible calls of one `optimize_image`
invocation, plus the byte sizes the opaque encoder produces.  Each flag
corresponds to one `try`/`except` site of the source. -/
structure Oracle where
  renameErr : Bool
  inspOrigErr : Bool
  openFmtErr : Bool
  optimizeErr : Bool
  inspOptErr : Bool
  resizeErr : Bool
  inspMinErr : Bool
  optBytes : Nat
  minBytes : Nat
deriving DecidableEq, Repr

/-- The full file name, `stem + suffix`. -/
def fullName (p : PyPath) : String := p.stem ++ p.ext

/-- Path `image_path.with_name(f"{image_path.stem}-original{image_path.suffix}")`
(src/mainsort.py line 141, src/main.py line 31). -/
def renamedPath (p : PyPath) : PyPath := { p with stem := p.stem ++ "-original" }

/-- Path `image_path.with_name(f"{image_path.stem}-min{image_path.suffix}")`
(src/mainsort.py line 198, src/main.py line 88). -/
def minPath (p : PyPath) : PyPath := { p with stem := p.stem ++ "-min" }

/-- Size triple returned by a successful inspection: width, height, and
size in kB.  (The source computes `os.path.getsize(path)/1024` as a float
and rounds it to two decimals for display and storage; the model keeps
the exact rational `bytes/1024`.) -/
structure SizeRec where
  w : Nat
  h : Nat
  kb : ℚ
deriving DecidableEq, Repr

/-- Embedding of `log_image_details` (src/mainsort.py lines 24-52): read
the file size, open the image for its dimensions, and return the size
group of the produced dict, or `none` — the empty dict `{}` — if anything
raised (the `description` and `path` keys of the dict are never read by
the caller and are omitted).  The `fail` flag models a transient
exception in `os.path.getsize` or `Image.open`; a missing or unopenable
file fails deterministically. -/
def log_image_details (fail : Bool) (fs : Fs) (q : PyPath) : Option SizeRec :=
  if fail then none
  else
    match fs q with
    | none => none
    | some d =>
      match d.img with
      | none => none
      | some i => some ⟨i.width, i.height, (d.bytes : ℚ) / 1024⟩

/-- Python `str.upper` on the ASCII format tags the codec declares. -/
def pyUpper (c : Char) : Char :=
  if 97 ≤ c.toNat && c.toNat ≤ 122 then Char.ofNat (c.toNat - 32) else c

/-- String uppercasing, for the `img_format.upper()` comparisons. -/
def upperStr (s : String) : String := ⟨s.data.map pyUpper⟩

/-- Test `img_format.upper() in ['JPEG', 'JPG']` (src/mainsort.py line
171; src/main.py line 61 spells it as two `==` comparisons joined by
`or`, which is the same test). -/
def isJpegFmt (fmt : String) : Bool :=
  upperStr fmt == "JPEG" || upperStr fmt == "JPG"

/-- Test `img_format.upper() == 'PNG'`. -/
def isPngFmt (fmt : String) : Bool := upperStr fmt == "PNG"

/-- The PNG-branch palette conversion `img.convert('P',
palette=Image.ADAPTIVE)` applied when `img.mode in ('RGBA', 'RGB')`. -/
def convertMode (mode : String) : String :=
  if mode == "RGBA" || mode == "RGB" then "P" else mode

/-- File produced by the three-way save branch shared by the optimize
step (src/mainsort.py lines 170-181) and the resize step (lines 201-208):
JPEG-family re-encode, PNG re-encode after optional palette conversion,
or the generic `optimize=True` save.  `w`/`h` are the pixel dimensions of
the buffer being saved and `outBytes` the byte size the opaque encoder
happens to produce. -/
def encodeImage (fmt : String) (i : ImgInfo) (w h outBytes : Nat) : FileData :=
  if isJpegFmt fmt then ⟨outBytes, some ⟨w, h, "JPEG", i.mode⟩⟩
  else if isPngFmt fmt then ⟨outBytes, some ⟨w, h, "PNG", convertMode i.mode⟩⟩
  else ⟨outBytes, some ⟨w, h, i.fmt, i.mode⟩⟩

/-- The downscale computation `(max(width // 8, 1), max(height // 8, 1))`
(src/mainsort.py line 194, src/main.py line 84). -/
def newSize (w h : Nat) : Nat × Nat := (max (w / 8) 1, max (h / 8) 1)

/-- Name of the processing root, `base_dir.name`. -/
def baseNameOf (base : List String) : String := base.getLastD ""

/-- Components of `path.relative_to(base_dir)` when the path lies under
the base directory, with the file name appended. -/
def relParts (base : List String) (p : PyPath) : List String :=
  p.dirs.drop base.length ++ [fullName p]

/-- The manifest path string `f"/{path.relative_to(base_dir)}"` used in
the ImageRecord (src/mainsort.py lines 228, 232, 236). -/
def relStr (base : List String) (p : PyPath) : String :=
  "/" ++ String.intercalate "/" (relParts base p)

/-- The `location` value (src/mainsort.py lines 217-223): the root-name-
rooted relative path, or — when `relative_to` raises `ValueError` because
the image is not under the base directory — the absolute path. -/
def locationOf (base : List String) (p : PyPath) : String :=
  if base <+: p.dirs then
    "/" ++ baseNameOf base ++ "/" ++ String.intercalate "/" (relParts base p)
  else
    "/" ++ String.intercalate "/" (p.dirs ++ [fullName p])

/-- One artifact group of an ImageRecord: the manifest path and the size
group from its inspection (`{}` becomes `none`). -/
structure ArtEntry where
  path : String
  size : Option SizeRec
deriving DecidableEq, Repr

/-- The manifest entry assembled at src/mainsort.py lines 226-239. -/
structure ImageRecord where
  original : ArtEntry
  optimized : ArtEntry
  min : ArtEntry
deriving DecidableEq, Repr

/-- The flat record inserted into the `images` table (src/mainsort.py
lines 245-259); a `.get` chain on an empty details dict yields `none`. -/
structure CatalogRow where
  original_name : String
  optimized_name : String
  resized_name : String
  original_size_kb : Option ℚ
  optimized_size_kb : Option ℚ
  resized_size_kb : Option ℚ
  original_width : Option Nat
  original_height : Option Nat
  optimized_width : Option Nat
  optimized_height : Option Nat
  resized_width : Option Nat
  resized_height : Option Nat
  location : String
deriving DecidableEq, Repr

/-- Where an `optimize_image` invocation ends: one of the abort points,
the successful `recorded` end of the mainsort pipeline, `crashed` for the
uncaught `ValueError` of src/mainsort.py line 228, or `completed` for the
record-free end of the main.py pipeline. -/
inductive Outcome
  | abortRenameExists
  | abortRenameErr
  | abortOpen
  | abortOptimize
  | abortResize
  | recorded
  | crashed
  | completed
deriving DecidableEq, Repr

/-- Result of one mainsort `optimize_image` invocation: the file system
afterwards, where the pipeline ended, and the (record, row) pair it
appended and inserted, if it reached the recording step. -/
structure PipeResult where
  fs : Fs
  outcome : Outcome
  entry : Option (ImageRecord × CatalogRow)

/-- Embedding of `optimize_image` from src/mainsort.py lines 128-262.
Step by step:
* rename the source to its `-original` name.  `os.rename` is modelled by
  the exception contract the handler at lines 147-149 is written
  against: it raises `FileExistsError` when the destination already
  exists (and the pipeline aborts with no state change); a missing
  source or a transient OS error (`o.renameErr`) hits the generic
  handler at lines 150-152 and also aborts with no state change;
* `log_image_details` on the renamed original (non-fatal, lines 154-155);
* format detection by reopening the renamed file (aborts on failure,
  lines 157-163);
* the optimize save to the pre-rename path (lines 165-185, aborts on
  failure);
* `log_image_details` on the optimized file (non-fatal, line 188);
* the downscale save to the `-min` path (lines 190-212, aborts on
  failure);
* `log_image_details` on the resized file (non-fatal, line 215);
* the `location` computation (lines 217-223, with its `ValueError`
  fallback), and the record/row assembly (lines 226-262).  The
  assembly itself calls `new_original_path.relative_to(base_dir)`
  outside any `try` (line 228), so when the image is not under the base
  directory it raises an uncaught `ValueError`: the pipeline ends in
  `crashed` with no record and no row.
The manifest append and the catalog insert (lines 242 and 262) are
represented by returning the (record, row) pair; the caller accumulates
them. -/
def optimize_image (o : Oracle) (fs : Fs) (base : List String) (p : PyPath) :
    PipeResult :=
  let newOrig := renamedPath p
  if (fs newOrig).isSome then ⟨fs, .abortRenameExists, none⟩
  else
    match fs p with
    | none => ⟨fs, .abortRenameErr, none⟩
    | some src =>
      if o.renameErr then ⟨fs, .abortRenameErr, none⟩
      else
        let fs1 := fsSet (fsRemove fs p) newOrig src
        let originalDetails := log_image_details o.inspOrigErr fs1 newOrig
        match src.img with
        | none => ⟨fs1, .abortOpen, none⟩
        | some info =>
          if o.openFmtErr then ⟨fs1, .abortOpen, none⟩
          else
            if o.optimizeErr then ⟨fs1, .abortOptimize, none⟩
            else
              let fs2 := fsSet fs1 p
                (encodeImage info.fmt info info.width info.height o.optBytes)
              let optimizedDetails := log_image_details o.inspOptErr fs2 p
              if o.resizeErr then ⟨fs2, .abortResize, none⟩
              else
                let ns := newSize info.width info.height
                let fs3 := fsSet fs2 (minPath p)
                  (encodeImage info.fmt info ns.1 ns.2 o.minBytes)
                let resizedDetails := log_image_details o.inspMinErr fs3 (minPath p)
                let loc := locationOf base p
                if base <+: p.dirs then
                  let record : ImageRecord :=
                    { original := ⟨relStr base newOrig, originalDetails⟩
                      optimized := ⟨relStr base p, optimizedDetails⟩
                      min := ⟨relStr base (minPath p), resizedDetails⟩ }
                  let row : CatalogRow :=
                    { original_name := fullName newOrig
                      optimized_name := fullName p
                      resized_name := fullName (minPath p)
                      original_size_kb := originalDetails.map (fun s => s.kb)
                      optimized_size_kb := optimizedDetails.map (fun s => s.kb)
                      resized_size_kb := resizedDetails.map (fun s => s.kb)
                      original_width := originalDetails.map (fun s => s.w)
                      original_height := originalDetails.map (fun s => s.h)
                      optimized_width := optimizedDetails.map (fun s => s.w)
                      optimized_height := optimizedDetails.map (fun s => s.h)
                      resized_width := resizedDetails.map (fun s => s.w)
                      resized_height := resizedDetails.map (fun s => s.h)
                      location := loc }
                  ⟨fs3, .recorded, some (record, row)⟩
                else ⟨fs3, .crashed, none⟩

namespace MainPy

/-- Embedding of `optimize_image` from src/main.py lines 22-105: the
same rename / format-detect / optimize / resize chain, with the same
per-step abort behavior and the same encoder branches, but with no
base-directory parameter and no record or row — its `log_image_details`
calls (lines 45, 78, 105) only print, so they have no effect on the
modelled state.  Returns the file system and where the pipeline ended
(`completed` on success). -/
def optimize_image (o : Oracle) (fs : Fs) (p : PyPath) : Fs × Outcome :=
  let newOrig := renamedPath p
  if (fs newOrig).isSome then ⟨fs, .abortRenameExists⟩
  else
    match fs p with
    | none => ⟨fs, .abortRenameErr⟩
    | some src =>
      if o.renameErr then ⟨fs, .abortRenameErr⟩
      else
        let fs1 := fsSet (fsRemove fs p) newOrig src
        match src.img with
        | none => ⟨fs1, .abortOpen⟩
        | some info =>
          if o.openFmtErr then ⟨fs1, .abortOpen⟩
          else
            if o.optimizeErr then ⟨fs1, .abortOptimize⟩
            else
              let fs2 := fsSet fs1 p
                (encodeImage info.fmt info info.width info.height o.optBytes)
              if o.resizeErr then ⟨fs2, .abortResize⟩
              else
                let ns := newSize info.width info.height
                let fs3 := fsSet fs2 (minPath p)
                  (encodeImage info.fmt info ns.1 ns.2 o.minBytes)
                ⟨fs3, .completed⟩

end MainPy

/-- Projection relating the two pipelines' endpoints: the mainsort
pipeline records (or crashes while assembling the record) exactly where
the main.py pipeline completes; every abort constructor is shared. -/
def projOutcome : Outcome → Outcome
  | .recorded => .completed
  | .crashed => .completed
  | x => x

/-! ### Concrete fixtures used by witnesses and counterexamples -/

/-- Fixture: header data of a small JPEG image. -/
def sampleImg : ImgInfo := ⟨100, 40, "JPEG", "RGB"⟩

/-- Fixture: a candidate image path directly under the root `root`. -/
def samplePath : PyPath := ⟨["root"], "photo", ".jpg"⟩

/-- Fixture: a file system holding exactly the sample image. -/
def sampleFs : Fs :=
  fun q => if q = samplePath then some ⟨1024, some sampleImg⟩ else none

/-- Fixture: an oracle on which every external call succeeds. -/
def okOracle : Oracle := ⟨false, false, false, false, false, false, false, 2048, 512⟩

/-- Fixture: a file system in which the `-original` target of the sample
image already exists (the state a second run finds). -/
def collisionFs : Fs :=
  fun q =>
    if q = renamedPath samplePath then some ⟨555, some sampleImg⟩
    else if q = samplePath then some ⟨1024, some sampleImg⟩ else none

/-- Fixture: an image path outside the processing root `root`. -/
def outsidePath : PyPath := ⟨["elsewhere"], "photo", ".jpg"⟩

/-- Fixture: a file system holding exactly the outside image. -/
def outsideFs : Fs :=
  fun q => if q = outsidePath then some ⟨1024, some sampleImg⟩ else none

/-- Fixture: an oracle on which only the inspection of the optimized
file raises (a local, recoverable failure per the source). -/
def inspFailOracle : Oracle :=
  ⟨false, false, false, false, true, false, false, 2048, 512⟩

/-! ### Per-image pipeline lemmas -/

/-- The pipeline only ever touches the source path, its `-original`
name, and its `-min` name; every other file is untouched. -/
theorem optimize_image_frame (o : Oracle) (fs : Fs) (base : List String)
    (p q : PyPath) (hq1 : q ≠ p) (hq2 : q ≠ renamedPath p)
    (hq3 : q ≠ minPath p) :
    (optimize_image o fs base p).fs q = fs q := by
  unfold optimize_image
  by_cases h1 : (fs (renamedPath p)).isSome = true
  · simp [h1]
  · cases hsrc : fs p with
    | none => simp [h1, hsrc]
    | some src =>
      cases hre : o.renameErr with
      | true => simp [h1, hsrc, hre]
      | false =>
        cases himg : src.img with
        | none => simp [h1, hsrc, hre, himg, fsSet, fsRemove, hq1, hq2]
        | some info =>
          cases hof : o.openFmtErr with
          | true => simp [h1, hsrc, hre, himg, hof, fsSet, fsRemove, hq1, hq2]
          | false =>
            cases hoe : o.optimizeErr with
            | true => simp [h1, hsrc, hre, himg, hof, hoe, fsSet, fsRemove, hq1, hq2]
            | false =>
              cases hrz : o.resizeErr with
              | true => simp [h1, hsrc, hre, himg, hof, hoe, hrz, fsSet, fsRemove, hq1, hq2]
              | false =>
                by_cases hpre : base <+: p.dirs
                · simp [h1, hsrc, hre, himg, hof, hoe, hrz, hpre, fsSet, fsRemove,
                    hq1, hq2, hq3]
                · simp [h1, hsrc, hre, himg, hof, hoe, hrz, hpre, fsSet, fsRemove,
                    hq1, hq2, hq3]

/-- The uncaught `ValueError` of the record assembly is unreachable for
images under the base directory — and those are the only images the
walker ever hands to the pipeline. -/
theorem optimize_image_not_crashed (o : Oracle) (fs : Fs) (base : List String)
    (p : PyPath) (h : base <+: p.dirs) :
    (optimize_image o fs base p).outcome ≠ .crashed := by
  unfold optimize_image
  by_cases h1 : (fs (renamedPath p)).isSome = true
  · simp [h1]
  · cases hsrc : fs p with
    | none => simp [h1, hsrc]
    | some src =>
      cases hre : o.renameErr with
      | true => simp [h1, hsrc, hre]
      | false =>
        cases himg : src.img with
        | none => simp [h1, hsrc, hre, himg]
        | some info =>
          cases hof : o.openFmtErr with
          | true => simp [h1, hsrc, hre, himg, hof]
          | false =>
            cases hoe : o.optimizeErr with
            | true => simp [h1, hsrc, hre, himg, hof, hoe]
            | false =>
              cases hrz : o.resizeErr with
              | true => simp [h1, hsrc, hre, himg, hof, hoe, hrz]
              | false => simp [h1, hsrc, hre, himg, hof, hoe, hrz, h]

/-- CLAIM C1: when the `-original` target name already exists on disk,
the rename step logs and aborts with no state change at all: the
returned file system is the input file system itself (so the source
file, the prior `-original`, optimized and `-min` files are all left
unchanged), no later pipeline step runs, and no record or row is
produced.  In particular, a second run over an already-processed
directory finds the first run's `-original` files in place and aborts
each per-image pipeline at this step, never overwriting them.
(`os.rename` is modelled by the exception contract the handler at
src/mainsort.py lines 147-149 is written against: it raises
`FileExistsError` when the destination exists.) -/
theorem rename_collision_aborts_without_state_change (o : Oracle) (fs : Fs)
    (base : List String) (p : PyPath) (d : FileData)
    (h : fs (renamedPath p) = some d) :
    optimize_image o fs base p = ⟨fs, .abortRenameExists, none⟩ := by
  unfold optimize_image
  simp [h]

/-- WITNESS for C1: on the fixture file system where
`photo-original.jpg` already exists, the pipeline on `photo.jpg` returns
the file system unchanged with outcome `abortRenameExists` and no
record. -/
theorem rename_collision_abort_example :
    collisionFs (renamedPath samplePath) = some ⟨555, some sampleImg⟩ ∧
    optimize_image okOracle collisionFs ["root"] samplePath =
      ⟨collisionFs, .abortRenameExists, none⟩ :=
  ⟨rfl, rename_collision_aborts_without_state_change okOracle collisionFs
    ["root"] samplePath ⟨555, some sampleImg⟩ rfl⟩

/-- CLAIM C10: on every input, the mainsort pipeline and the main.py
pipeline produce the same file system (same rename, same encoder
branches writing the optimized file at the pre-rename path, same
downscale written to the `-min` path) and end at the same step — every
abort point coincides, and mainsort ends its file-system work exactly
where main.py completes, differing only in that it additionally
assembles the manifest record and catalog row (the `entry` field of its
result, which main.py has no counterpart of). -/
theorem pipelines_equivalent (o : Oracle) (fs : Fs) (base : List String)
    (p : PyPath) :
    (optimize_image o fs base p).fs = (MainPy.optimize_image o fs p).1 ∧
    projOutcome (optimize_image o fs base p).outcome =
      (MainPy.optimize_image o fs p).2 := by
  unfold optimize_image MainPy.optimize_image
  by_cases h1 : (fs (renamedPath p)).isSome = true
  · simp [h1, projOutcome]
  · cases hsrc : fs p with
    | none => simp [h1, hsrc, projOutcome]
    | some src =>
      cases hre : o.renameErr with
      | true => simp [h1, hsrc, hre, projOutcome]
      | false =>
        cases himg : src.img with
        | none => simp [h1, hsrc, hre, himg, projOutcome]
        | some info =>
          cases hof : o.openFmtErr with
          | true => simp [h1, hsrc, hre, himg, hof, projOutcome]
          | false =>
            cases hoe : o.optimizeErr with
            | true => simp [h1, hsrc, hre, himg, hof, hoe, projOutcome]
            | false =>
              cases hrz : o.resizeErr with
              | true => simp [h1, hsrc, hre, himg, hof, hoe, hrz, projOutcome]
              | false =>
                by_cases hpre : base <+: p.dirs
                · simp [h1, hsrc, hre, himg, hof, hoe, hrz, hpre, projOutcome]
                · simp [h1, hsrc, hre, himg, hof, hoe, hrz, hpre, projOutcome]

/-- COUNTEREXAMPLE to CLAIM C2 as stated: the claim requires a
CatalogRow to be inserted only if all three artifacts were "produced and
inspected without error", but `log_image_details` failures are caught
and non-fatal (src/mainsort.py lines 50-52), and the pipeline continues
to the recording step storing `None` size fields.  On an input where
only the inspection of the optimized file raises, a row is still
inserted — with `optimized_size_kb = None`. -/
theorem row_inserted_despite_inspection_error :
    inspFailOracle.inspOptErr = true ∧
    (optimize_image inspFailOracle sampleFs ["root"] samplePath).entry.isSome = true ∧
    ((optimize_image inspFailOracle sampleFs ["root"] samplePath).entry.map
        (fun x => x.2.optimized_size_kb)) = some none := by
  refine ⟨rfl, ?_, ?_⟩
  · decide
  · decide

/-- CLAIM C2 (amended): a CatalogRow is inserted, and the ImageRecord
appended, exactly when all three artifacts were produced without error —
the rename, the format detection, the optimize save and the resize save
all succeeded — and the record assembly did not raise (the image lies
under the base directory).  A pipeline that aborts at any earlier step
inserts no row and appends no record.  Inspection failures are local and
recoverable and do not prevent the insertion (the row then carries null
size fields). -/
theorem row_inserted_iff_artifacts_produced (o : Oracle) (fs : Fs)
    (base : List String) (p : PyPath) :
    ((optimize_image o fs base p).entry.isSome =
      ((fs (renamedPath p)).isNone && ((fs p).bind (fun d => d.img)).isSome &&
        !o.renameErr && !o.openFmtErr && !o.optimizeErr && !o.resizeErr &&
        decide (base <+: p.dirs))) ∧
    ((optimize_image o fs base p).outcome = .recorded ↔
      (optimize_image o fs base p).entry.isSome = true) := by
  unfold optimize_image
  by_cases h1 : (fs (renamedPath p)).isSome = true
  · rcases Option.isSome_iff_exists.mp h1 with ⟨d, hd⟩
    simp [hd]
  · have h1n : fs (renamedPath p) = none := by
      cases hx : fs (renamedPath p) with
      | none => rfl
      | some d => rw [hx] at h1; simp at h1
    cases hsrc : fs p with
    | none => simp [h1n, hsrc]
    | some src =>
      cases hre : o.renameErr with
      | true => simp [h1n, hsrc, hre]
      | false =>
        cases himg : src.img with
        | none => simp [h1n, hsrc, hre, himg]
        | some info =>
          cases hof : o.openFmtErr with
          | true => simp [h1n, hsrc, hre, himg, hof]
          | false =>
            cases hoe : o.optimizeErr with
            | true => simp [h1n, hsrc, hre, himg, hof, hoe]
            | false =>
              cases hrz : o.resizeErr with
              | true => simp [h1n, hsrc, hre, himg, hof, hoe, hrz]
              | false =>
                by_cases hpre : base <+: p.dirs
                · simp [h1n, hsrc, hre, himg, hof, hoe, hrz, hpre]
                · simp [h1n, hsrc, hre, himg, hof, hoe, hrz, hpre]

/-- CLAIM C3: for a source image of pixel size (W, H) with W, H ≥ 1, the
downscale computes exactly `(max(1, W // 8), max(1, H // 8))`, both
components are at least 1, and whenever the pipeline reaches the
recording step the `-min` file on the resulting file system is the
encoder output at exactly those dimensions; a (1, 1) source resizes to
(1, 1) and a (10, 1) source to (1, 1), never to a zero dimension. -/
theorem resize_dimensions_exact (o : Oracle) (fs : Fs) (base : List String)
    (p : PyPath) (src : FileData) (i : ImgInfo)
    (hsrc : fs p = some src) (himg : src.img = some i)
    (hw : 1 ≤ i.width) (hh : 1 ≤ i.height) :
    (newSize i.width i.height = (max 1 (i.width / 8), max 1 (i.height / 8)) ∧
      1 ≤ (newSize i.width i.height).1 ∧ 1 ≤ (newSize i.width i.height).2) ∧
    ((optimize_image o fs base p).outcome = .recorded →
      (optimize_image o fs base p).fs (minPath p) =
        some (encodeImage i.fmt i (newSize i.width i.height).1
          (newSize i.width i.height).2 o.minBytes)) ∧
    newSize 1 1 = (1, 1) ∧ newSize 10 1 = (1, 1) := by
  refine ⟨⟨by simp [newSize, Nat.max_comm], Nat.le_max_right _ _,
    Nat.le_max_right _ _⟩, ?_, by decide, by decide⟩
  intro hrec
  unfold optimize_image at hrec ⊢
  by_cases h1 : (fs (renamedPath p)).isSome = true
  · simp [h1] at hrec
  · cases hre : o.renameErr with
    | true => simp [h1, hsrc, hre] at hrec
    | false =>
      cases hof : o.openFmtErr with
      | true => simp [h1, hsrc, hre, himg, hof] at hrec
      | false =>
        cases hoe : o.optimizeErr with
        | true => simp [h1, hsrc, hre, himg, hof, hoe] at hrec
        | false =>
          cases hrz : o.resizeErr with
          | true => simp [h1, hsrc, hre, himg, hof, hoe, hrz] at hrec
          | false =>
            by_cases hpre : base <+: p.dirs
            · simp [h1, hsrc, hre, himg, hof, hoe, hrz, hpre, fsSet]
            · simp [h1, hsrc, hre, himg, hof, hoe, hrz, hpre] at hrec

/-- WITNESS for C3: on the sample 100 × 40 JPEG the pipeline records and
the `-min` file has dimensions (12, 5) = (max(1, 100 // 8),
max(1, 40 // 8)). -/
theorem resize_dimensions_example :
    (optimize_image okOracle sampleFs ["root"] samplePath).fs (minPath samplePath) =
      some (encodeImage sampleImg.fmt sampleImg (newSize sampleImg.width sampleImg.height).1
        (newSize sampleImg.width sampleImg.height).2 okOracle.minBytes) ∧
    newSize sampleImg.width sampleImg.height = (12, 5) := by
  constructor
  · exact (resize_dimensions_exact okOracle sampleFs ["root"] samplePath
      ⟨1024, some sampleImg⟩ sampleImg rfl rfl (by decide) (by decide)).2.1 (by decide)
  · decide

/-- Unfolding of the `location` fallback branch for a path not under the
base directory. -/
theorem locationOf_outside {base : List String} {p : PyPath}
    (h : ¬ base <+: p.dirs) :
    locationOf base p = "/" ++ String.intercalate "/" (p.dirs ++ [fullName p]) := by
  unfold locationOf
  rw [if_neg h]

/-- COUNTEREXAMPLE to CLAIM C8 as stated: for an image path not under
the processing root the `location` computation does fall back to the
absolute path (the `except ValueError` at src/mainsort.py lines
221-223), but the pipeline then does NOT complete the Recorded state:
the record assembly at line 228 calls
`new_original_path.relative_to(base_dir)` outside any `try`, so the
uncaught `ValueError` ends the pipeline with no record and no row, even
though every file-system step succeeded. -/
theorem outside_root_pipeline_crashes :
    (optimize_image okOracle outsideFs ["root"] outsidePath).outcome = .crashed ∧
    (optimize_image okOracle outsideFs ["root"] outsidePath).entry = none := by
  constructor
  · decide
  · decide

/-- CLAIM C8 (amended): whenever the pipeline produces a record and a
row, the image lies under the processing root and the row's `location`
column is the image's root-relative path rooted at a leading `/` plus
the root folder's name.  For an image path not under the root, the
`location` local variable does fall back to the absolute path, but the
pipeline never reaches the Recorded state: the record assembly raises an
uncaught `ValueError`, so no record and no row are produced. -/
theorem location_column_amended (o : Oracle) (fs : Fs) (base : List String)
    (p : PyPath) :
    (∀ r row, (optimize_image o fs base p).entry = some (r, row) →
      base <+: p.dirs ∧
      row.location =
        "/" ++ baseNameOf base ++ "/" ++ String.intercalate "/" (relParts base p)) ∧
    (¬ base <+: p.dirs →
      (optimize_image o fs base p).entry = none ∧
      (optimize_image o fs base p).outcome ≠ .recorded ∧
      locationOf base p = "/" ++ String.intercalate "/" (p.dirs ++ [fullName p])) := by
  unfold optimize_image
  by_cases h1 : (fs (renamedPath p)).isSome = true
  · simp [h1]
    intro hpre
    exact locationOf_outside hpre
  · cases hsrc : fs p with
    | none =>
      simp [h1, hsrc]
      intro hpre
      exact locationOf_outside hpre
    | some src =>
      cases hre : o.renameErr with
      | true =>
        simp [h1, hsrc, hre]
        intro hpre
        exact locationOf_outside hpre
      | false =>
        cases himg : src.img with
        | none =>
          simp [h1, hsrc, hre, himg]
          intro hpre
          exact locationOf_outside hpre
        | some info =>
          cases hof : o.openFmtErr with
          | true =>
            simp [h1, hsrc, hre, himg, hof]
            intro hpre
            exact locationOf_outside hpre
          | false =>
            cases hoe : o.optimizeErr with
            | true =>
              simp [h1, hsrc, hre, himg, hof, hoe]
              intro hpre
              exact locationOf_outside hpre
            | false =>
              cases hrz : o.resizeErr with
              | true =>
                simp [h1, hsrc, hre, himg, hof, hoe, hrz]
                intro hpre
                exact locationOf_outside hpre
              | false =>
                by_cases hpre : base <+: p.dirs
                · simp [h1, hsrc, hre, himg, hof, hoe, hrz, hpre, locationOf]
                · simp [h1, hsrc, hre, himg, hof, hoe, hrz, hpre]
                  exact locationOf_outside hpre

/-- WITNESS for C8 (amended): for the fixture image outside the root,
the pipeline produces no entry, does not record, and the fallback
location value is the absolute path `/elsewhere/photo.jpg`. -/
theorem location_column_example :
    (optimize_image okOracle outsideFs ["root"] outsidePath).entry = none ∧
    (optimize_image okOracle outsideFs ["root"] outsidePath).outcome ≠ .recorded ∧
    locationOf ["root"] outsidePath = "/elsewhere/photo.jpg" := by
  have h := (location_column_amended okOracle outsideFs ["root"] outsidePath).2
    (by decide)
  exact ⟨h.1, h.2.1, h.2.2.trans (by decide)⟩

/-! ## Directory walker (src/mainsort.py lines 291-311, src/main.py lines
107-124) and top-level driver (src/mainsort.py lines 363-391).

The walker is modelled over a snapshot of the file list: `os.walk` lists
each directory before its files are processed, the renamed `-original`
and written `-min` files are excluded by the name filter, and the
optimized file reuses a path the walker has already listed, so one pass
visits exactly the original candidates (the traversal-order assumption
spelled out in the spec's design notes). -/

/-- Python `file.lower()` of a file name, as a character list. -/
def lowerName (s : String) : List Char := s.data.map pyLower

/-- Test `file.lower().endswith(('.jpg', '.jpeg', '.png'))`
(src/mainsort.py line 305, src/main.py line 118). -/
def isImageExt (name : String) : Bool :=
  ".jpg".data.isSuffixOf (lowerName name) ||
    ".jpeg".data.isSuffixOf (lowerName name) ||
    ".png".data.isSuffixOf (lowerName name)

/-- Occurrence test of one character list inside another. -/
def listInfix (needle : List Char) : List Char → Bool
  | [] => needle.isEmpty
  | c :: rest => needle.isPrefixOf (c :: rest) || listInfix needle rest

/-- Python substring test `needle in s`. -/
def strContains (needle s : String) : Bool :=
  listInfix needle.data s.data

/-- The candidate filter (src/mainsort.py lines 305-309): image
extension, and neither `-original` nor `-min` occurs in the stem. -/
def isCandidateName (p : PyPath) : Bool :=
  isImageExt (fullName p) && !(strContains "-original" p.stem) &&
    !(strContains "-min" p.stem)

/-- A well-formed image extension: the name's suffix is itself exactly
one of the three image extensions (true of every real-world candidate;
only a dot-file named exactly `.jpg`, whose Python `suffix` is empty,
escapes it). -/
def imgExtOnly (e : String) : Bool :=
  e.data.map pyLower == ".jpg".data || e.data.map pyLower == ".jpeg".data ||
    e.data.map pyLower == ".png".data

/-- State accumulated by one walker pass: the file system, the
`photos_list` manifest accumulator, the catalog rows inserted so far,
and the candidates the per-image pipeline was invoked on. -/
structure WalkState where
  fs : Fs
  photos : List ImageRecord
  rows : List CatalogRow
  processed : List PyPath

/-- The walker loop body (src/mainsort.py lines 302-311): for each file,
test the candidate filter and, if it passes, run `optimize_image`,
carrying its file-system effects, manifest append and catalog insert
forward.  The uncaught `ValueError` of the record assembly propagates
out of `optimize_image` and aborts the whole walk (`Except.error`);
every caught failure merely yields no entry and the walk continues with
the next file.  The index into the oracle sequence advances once per
pipeline invocation. -/
def processFiles (orc : Nat → Oracle) (base : List String) :
    Nat → WalkState → List PyPath → Except String WalkState
  | _, st, [] => .ok st
  | i, st, q :: rest =>
    if isCandidateName q then
      let r := optimize_image (orc i) st.fs base q
      if r.outcome = .crashed then .error "ValueError"
      else
        processFiles orc base (i + 1)
          ⟨r.fs, st.photos ++ ((r.entry.map (fun x => [x.1])).getD []),
            st.rows ++ ((r.entry.map (fun x => [x.2])).getD []),
            st.processed ++ [q]⟩ rest
    else processFiles orc base i st rest

/-- Embedding of `process_directory` (src/mainsort.py lines 291-311):
walk the files under `dir` (the snapshot of the recursive `os.walk`) and
run the pipeline on each candidate with `base` as the base directory. -/
def process_directory (orc : Nat → Oracle) (dir base : List String)
    (files : List PyPath) (fs : Fs) : Except String WalkState :=
  processFiles orc base 0 ⟨fs, [], [], []⟩
    (files.filter (fun q => decide (dir <+: q.dirs)))

/-- Embedding of the `mainsort` driver (src/mainsort.py lines 363-391):
if the supplied path is not a valid directory, print and return before
any processing (`none`); otherwise process the directory with the root
as both walk directory and base directory. -/
def mainsort (orc : Nat → Oracle) (isDir : Bool) (files : List PyPath)
    (fs : Fs) (base : List String) : Option (Except String WalkState) :=
  if isDir then some (process_directory orc base base files fs) else none

/-- The sizes stored in a catalog row agree, field by field, with the
three size groups of the matching manifest record (both are read off the
same inspection results, src/mainsort.py lines 226-259). -/
def rowMatches (r : ImageRecord) (c : CatalogRow) : Prop :=
  c.original_size_kb = r.original.size.map (fun s => s.kb) ∧
  c.optimized_size_kb = r.optimized.size.map (fun s => s.kb) ∧
  c.resized_size_kb = r.min.size.map (fun s => s.kb) ∧
  c.original_width = r.original.size.map (fun s => s.w) ∧
  c.original_height = r.original.size.map (fun s => s.h) ∧
  c.optimized_width = r.optimized.size.map (fun s => s.w) ∧
  c.optimized_height = r.optimized.size.map (fun s => s.h) ∧
  c.resized_width = r.min.size.map (fun s => s.w) ∧
  c.resized_height = r.min.size.map (fun s => s.h)

instance (r : ImageRecord) (c : CatalogRow) : Decidable (rowMatches r c) := by
  unfold rowMatches
  infer_instance

/-- Whenever the pipeline produces an entry, its record and row carry
the same sizes. -/
theorem optimize_image_entry_matches (o : Oracle) (fs : Fs)
    (base : List String) (p : PyPath) (r : ImageRecord) (row : CatalogRow)
    (h : (optimize_image o fs base p).entry = some (r, row)) :
    rowMatches r row := by
  unfold optimize_image at h
  by_cases h1 : (fs (renamedPath p)).isSome = true
  · simp [h1] at h
  · cases hsrc : fs p with
    | none => simp [h1, hsrc] at h
    | some src =>
      cases hre : o.renameErr with
      | true => simp [h1, hsrc, hre] at h
      | false =>
        cases himg : src.img with
        | none => simp [h1, hsrc, hre, himg] at h
        | some info =>
          cases hof : o.openFmtErr with
          | true => simp [h1, hsrc, hre, himg, hof] at h
          | false =>
            cases hoe : o.optimizeErr with
            | true => simp [h1, hsrc, hre, himg, hof, hoe] at h
            | false =>
              cases hrz : o.resizeErr with
              | true => simp [h1, hsrc, hre, himg, hof, hoe, hrz] at h
              | false =>
                by_cases hpre : base <+: p.dirs
                · simp only [h1, hsrc, hre, himg, hof, hoe, hrz, hpre,
                    Bool.false_eq_true, if_false, if_true, Option.isSome_none,
                    if_pos, Option.some.injEq, Prod.mk.injEq] at h
                  obtain ⟨hr, hrow⟩ := h
                  subst hr
                  subst hrow
                  unfold rowMatches
                  exact ⟨rfl, rfl, rfl, rfl, rfl, rfl, rfl, rfl, rfl⟩
                · simp [h1, hsrc, hre, himg, hof, hoe, hrz, hpre] at h

/-- The walker processes every file of its list: it never errors when
every file lies under the base directory, and the candidates it invokes
the pipeline on are exactly the filter's survivors, in order. -/
theorem processFiles_ok (orc : Nat → Oracle) (base : List String) :
    ∀ (l : List PyPath) (i : Nat) (st : WalkState),
      (∀ q ∈ l, base <+: q.dirs) →
      ∃ st2, processFiles orc base i st l = .ok st2 ∧
        st2.processed = st.processed ++ l.filter isCandidateName := by
  intro l
  induction l with
  | nil => intro i st _; exact ⟨st, rfl, by simp⟩
  | cons q rest ih =>
    intro i st hq
    by_cases hc : isCandidateName q = true
    · have hnc : ¬((optimize_image (orc i) st.fs base q).outcome = .crashed) :=
        optimize_image_not_crashed (orc i) st.fs base q
          (hq q (List.mem_cons_self _ _))
      rcases ih (i + 1)
          ⟨(optimize_image (orc i) st.fs base q).fs,
            st.photos ++ (((optimize_image (orc i) st.fs base q).entry.map
              (fun x => [x.1])).getD []),
            st.rows ++ (((optimize_image (orc i) st.fs base q).entry.map
              (fun x => [x.2])).getD []),
            st.processed ++ [q]⟩
          (fun r hr => hq r (List.mem_cons_of_mem _ hr)) with ⟨st2, h2, hp2⟩
      refine ⟨st2, ?_, ?_⟩
      · simp only [processFiles, hc, if_true]
        rw [if_neg hnc]
        exact h2
      · rw [hp2]
        simp [hc, List.filter_cons, List.append_assoc]
    · rcases ih i st (fun r hr => hq r (List.mem_cons_of_mem _ hr)) with
        ⟨st2, h2, hp2⟩
      refine ⟨st2, ?_, ?_⟩
      · simp only [processFiles]
        rw [if_neg hc]
        exact h2
      · rw [hp2]
        simp [List.filter_cons, hc]

/-- CLAIM C6: the run as a whole never fails.  With an invalid input
directory the driver halts before any processing; with a valid one the
walker terminates normally on every oracle — every failure of a prior
image's pipeline is caught and the walker proceeds to the next candidate
file — and the pipeline is invoked exactly on the surviving candidates,
in discovery order.  (The uncaught `ValueError` of the record assembly
cannot fire here because the walker only hands the pipeline paths under
the root.) -/
theorem walker_never_fails (orc : Nat → Oracle) (files : List PyPath)
    (fs : Fs) (base : List String) :
    mainsort orc false files fs base = none ∧
    ∃ st, mainsort orc true files fs base = some (.ok st) ∧
      st.processed =
        (files.filter (fun q => decide (base <+: q.dirs))).filter
          isCandidateName := by
  constructor
  · rfl
  · have hall : ∀ q ∈ files.filter (fun q => decide (base <+: q.dirs)),
        base <+: q.dirs := by
      intro q hq
      have := (List.mem_filter.mp hq).2
      simpa using this
    rcases processFiles_ok orc base _ 0 ⟨fs, [], [], []⟩ hall with ⟨st, h1, h2⟩
    refine ⟨st, ?_, by simpa using h2⟩
    simp only [mainsort, process_directory, if_true]
    rw [h1]

/-- Invariant: along the whole walk, the manifest accumulator and the
row list stay in size-matching lockstep — each pipeline invocation
appends a record and inserts a row together, or neither. -/
theorem processFiles_forall2 (orc : Nat → Oracle) (base : List String) :
    ∀ (l : List PyPath) (i : Nat) (st st2 : WalkState),
      processFiles orc base i st l = .ok st2 →
      List.Forall₂ rowMatches st.photos st.rows →
      List.Forall₂ rowMatches st2.photos st2.rows := by
  intro l
  induction l with
  | nil =>
    intro i st st2 h hf
    simp only [processFiles, Except.ok.injEq] at h
    rw [← h]
    exact hf
  | cons q rest ih =>
    intro i st st2 h hf
    by_cases hc : isCandidateName q = true
    · by_cases hcr : (optimize_image (orc i) st.fs base q).outcome = .crashed
      · simp [processFiles, hc, hcr] at h
      · simp only [processFiles, hc, if_true] at h
        rw [if_neg hcr] at h
        cases he : (optimize_image (orc i) st.fs base q).entry with
        | none =>
          rw [he] at h
          apply ih _ _ _ h
          simpa using hf
        | some pr =>
          obtain ⟨r, row⟩ := pr
          rw [he] at h
          apply ih _ _ _ h
          simp only [Option.map_some, Option.getD_some]
          exact List.rel_append hf
            (List.Forall₂.cons
              (optimize_image_entry_matches (orc i) st.fs base q r row he)
              List.Forall₂.nil)
    · simp only [processFiles] at h
      rw [if_neg hc] at h
      exact ih _ _ _ h hf

/-- CLAIM C7: the manifest and the catalog stay consistent over a run —
when the walk completes, the manifest accumulator and the list of
inserted rows have equal length, each record/row pair was produced
together by the Recorded step of the same image's pipeline, and the kb,
width and height values stored in each row equal those of the matching
record's three size groups (`List.Forall₂ rowMatches` pairs them up
positionally). -/
theorem manifest_catalog_consistent (orc : Nat → Oracle)
    (dir base : List String) (files : List PyPath) (fs : Fs) :
    match process_directory orc dir base files fs with
    | .error _ => True
    | .ok st =>
        st.photos.length = st.rows.length ∧
        List.Forall₂ rowMatches st.photos st.rows := by
  cases hpd : process_directory orc dir base files fs with
  | error e => trivial
  | ok st =>
    have hf : List.Forall₂ rowMatches st.photos st.rows := by
      apply processFiles_forall2 orc base _ 0 ⟨fs, [], [], []⟩ st
      · exact hpd
      · exact List.Forall₂.nil
    exact ⟨List.Forall₂.length_eq hf, hf⟩

/-- Fixture: a non-image text file under the root. -/
def txtPath : PyPath := ⟨["root"], "notes", ".txt"⟩

/-- Fixture: a file system with the sample image and a text file. -/
def txtFs : Fs :=
  fun q =>
    if q = txtPath then some ⟨9, none⟩
    else if q = samplePath then some ⟨1024, some sampleImg⟩ else none

/-- Fixture: a file already carrying the `-min` name the sample image's
resize step will write to. -/
def minNamedPath : PyPath := ⟨["root"], "photo-min", ".jpg"⟩

/-- Fixture: a file system with the sample image and a pre-existing
`photo-min.jpg`. -/
def minCollisionFs : Fs :=
  fun q =>
    if q = minNamedPath then some ⟨7, none⟩
    else if q = samplePath then some ⟨1024, some sampleImg⟩ else none

/-- Appending a well-formed image extension to any stem yields a name
that passes the extension test. -/
theorem isImageExt_append (s e : String) (h : imgExtOnly e = true) :
    isImageExt (s ++ e) = true := by
  unfold isImageExt lowerName
  rw [String.data_append, List.map_append, Bool.or_eq_true, Bool.or_eq_true]
  unfold imgExtOnly at h
  rw [Bool.or_eq_true, Bool.or_eq_true] at h
  rcases h with (h | h) | h
  · rw [beq_iff_eq] at h
    refine (Or.inl (Or.inl (List.isSuffixOf_iff_suffix.mpr ?_)))
    rw [← h]
    exact List.suffix_append _ _
  · rw [beq_iff_eq] at h
    refine Or.inl (Or.inr (List.isSuffixOf_iff_suffix.mpr ?_))
    rw [← h]
    exact List.suffix_append _ _
  · rw [beq_iff_eq] at h
    refine Or.inr (List.isSuffixOf_iff_suffix.mpr ?_)
    rw [← h]
    exact List.suffix_append _ _

/-- Over a whole walk in which every candidate has a well-formed image
extension, a file whose name fails the extension test is never written
to: every path the pipeline touches ends in a candidate's extension. -/
theorem processFiles_frame (orc : Nat → Oracle) (base : List String) :
    ∀ (l : List PyPath) (i : Nat) (st st2 : WalkState) (q : PyPath),
      processFiles orc base i st l = .ok st2 →
      (∀ p ∈ l, isCandidateName p = true → imgExtOnly p.ext = true) →
      isImageExt (fullName q) = false →
      st2.fs q = st.fs q := by
  intro l
  induction l with
  | nil =>
    intro i st st2 q h _ _
    simp only [processFiles, Except.ok.injEq] at h
    rw [← h]
  | cons p rest ih =>
    intro i st st2 q h hwf hq
    by_cases hc : isCandidateName p = true
    · by_cases hcr : (optimize_image (orc i) st.fs base p).outcome = .crashed
      · simp [processFiles, hc, hcr] at h
      · simp only [processFiles, hc, if_true] at h
        rw [if_neg hcr] at h
        have hext : imgExtOnly p.ext = true := hwf p (List.mem_cons_self _ _) hc
        have himg : isImageExt (fullName p) = true := by
          have hc2 := hc
          simp only [isCandidateName, Bool.and_eq_true] at hc2
          exact hc2.1.1
        have hr1 : isImageExt (fullName (renamedPath p)) = true := by
          have he : fullName (renamedPath p) = (p.stem ++ "-original") ++ p.ext := rfl
          rw [he]
          exact isImageExt_append _ _ hext
        have hr2 : isImageExt (fullName (minPath p)) = true := by
          have he : fullName (minPath p) = (p.stem ++ "-min") ++ p.ext := rfl
          rw [he]
          exact isImageExt_append _ _ hext
        have hqp : q ≠ p := by
          intro he
          rw [he, himg] at hq
          cases hq
        have hqr : q ≠ renamedPath p := by
          intro he
          rw [he, hr1] at hq
          cases hq
        have hqm : q ≠ minPath p := by
          intro he
          rw [he, hr2] at hq
          cases hq
        have hstep : (optimize_image (orc i) st.fs base p).fs q = st.fs q :=
          optimize_image_frame (orc i) st.fs base p q hqp hqr hqm
        have htail := ih (i + 1) _ st2 q h
          (fun r hr hcr2 => hwf r (List.mem_cons_of_mem _ hr) hcr2) hq
        rw [htail]
        exact hstep
    · simp only [processFiles] at h
      rw [if_neg hc] at h
      exact ih i st st2 q h
        (fun r hr hcr2 => hwf r (List.mem_cons_of_mem _ hr) hcr2) hq

/-- COUNTEREXAMPLE to CLAIM C9 as stated: a non-candidate file is NOT
always left completely untouched.  `photo-min.jpg` is excluded by the
stem filter (it is never itself processed), yet processing the candidate
`photo.jpg` writes its resized output to exactly that name, overwriting
the pre-existing file: after the walk the file holds the encoder output
instead of its original 7 bytes. -/
theorem min_named_file_overwritten :
    isCandidateName minNamedPath = false ∧
    minCollisionFs minNamedPath = some ⟨7, none⟩ ∧
    ((process_directory (fun _ => okOracle) ["root"] ["root"]
        [minNamedPath, samplePath] minCollisionFs).map
      (fun st => st.fs minNamedPath)).toOption =
      some (some (encodeImage "JPEG" sampleImg 12 5 512)) := by
  refine ⟨by decide, by decide, by decide⟩

/-- CLAIM C9 (amended): the walker invokes the per-image pipeline
exactly on the files whose extension is case-insensitively one of
`.jpg`, `.jpeg`, `.png` and whose stem contains neither `-original` nor
`-min` — and on no other file.  A file whose name fails the extension
test (for example a `.txt` file) is left completely untouched and gets
no manifest or catalog entry (entries arise only from pipeline
invocations); the hypothesis that each candidate's suffix is itself an
image extension rules only out dot-files named exactly `.jpg`.  A
non-candidate whose name does carry an image extension, however, can be
overwritten by a candidate's resize step, as the counterexample shows. -/
theorem walker_filter_amended (orc : Nat → Oracle) (base : List String)
    (files : List PyPath) (fs : Fs)
    (hwf : ∀ p ∈ files, isCandidateName p = true → imgExtOnly p.ext = true)
    (q : PyPath) (hq : isImageExt (fullName q) = false) :
    (process_directory orc base base files fs).map (fun st => st.processed) =
      .ok ((files.filter (fun r => decide (base <+: r.dirs))).filter
        isCandidateName) ∧
    (process_directory orc base base files fs).map (fun st => st.fs q) =
      .ok (fs q) := by
  have hall : ∀ r ∈ files.filter (fun r => decide (base <+: r.dirs)),
      base <+: r.dirs := by
    intro r hr
    have := (List.mem_filter.mp hr).2
    simpa using this
  rcases processFiles_ok orc base _ 0 ⟨fs, [], [], []⟩ hall with ⟨st, h1, h2⟩
  have hfr : st.fs q = fs q := by
    apply processFiles_frame orc base _ 0 ⟨fs, [], [], []⟩ st q h1
    · intro p hp
      exact hwf p (List.mem_filter.mp hp).1
    · exact hq
  constructor
  · show (processFiles orc base 0 ⟨fs, [], [], []⟩ _).map _ = _
    rw [h1]
    simpa [Except.map] using h2
  · show (processFiles orc base 0 ⟨fs, [], [], []⟩ _).map _ = _
    rw [h1]
    simpa [Except.map] using hfr

/-- WITNESS for C9 (amended): on a directory holding `photo.jpg` and
`notes.txt`, the walker invokes the pipeline exactly on `photo.jpg` and
the text file is untouched. -/
theorem walker_filter_example :
    (process_directory (fun _ => okOracle) ["root"] ["root"]
        [samplePath, txtPath] txtFs).map (fun st => st.processed) =
      .ok (([samplePath, txtPath].filter
        (fun r => decide (["root"] <+: r.dirs))).filter isCandidateName) ∧
    (process_directory (fun _ => okOracle) ["root"] ["root"]
        [samplePath, txtPath] txtFs).map (fun st => st.fs txtPath) =
      .ok (txtFs txtPath) :=
  walker_filter_amended (fun _ => okOracle) ["root"] [samplePath, txtPath]
    txtFs (by decide) txtPath (by decide)

end UltimateOptimizer
